import Mathlib

/-!
Shallow embedding of the publication core of the repository
(`github_utils.py` and `generator.py`).

Remote interactions (GitHub API calls, HTTP POST/GET, the OpenAI call) are
modelled by explicit oracles: each remote call is a field of an environment
structure returning `Except String α`, where `Except.error e` stands for the
call raising a Python exception whose cause is `e`.  The functions below are
direct translations of the Python functions, threading these oracles and
recording a trace of the remote write operations they attempt, so that
ordering and fail-fast properties can be stated.
-/

deriving instance DecidableEq for Except

/-- Python `path.lstrip("/")`: drop every leading `'/'` character. -/
def lstripSlash (s : String) : String :=
  ⟨s.toList.dropWhile (fun c => c == '/')⟩

/-- Result dictionary returned by `create_repo_and_push` / `update_repo_and_push`:
`{"repo_url": ..., "commit_sha": ..., "owner": ...}`. -/
structure SyncResult where
  repoUrl : String
  commitSha : String
  owner : String
deriving DecidableEq, Repr

/-- Errors raised by the synchronizer.  `missingToken` is the
`RuntimeError("GITHUB_TOKEN is required")`; `repoNotFound` is the
`RuntimeError(f"Repository {repo_name} not found under owners: {owners_to_try}")`
(it carries the repository name and the list of tried owners); `apiError`
is an exception propagated unchanged from a remote call, carrying only its
underlying cause. -/
inductive GhError where
  | missingToken : GhError
  | repoNotFound : String → List String → GhError
  | apiError : String → GhError
deriving DecidableEq, Repr

/-- A remote write attempted by the synchronizer: `repo.create_file(path, message,
content)` or `repo.update_file(path, message, content, sha)`. -/
inductive WriteOp where
  | create : String → String → String → WriteOp
  | update : String → String → String → String → WriteOp
deriving DecidableEq, Repr

/-- `is_org(gh, name)`: probe `gh.get_organization(name)`; any exception is
swallowed and yields `False`. -/
def is_org (orgProbe : String → Except String Unit) (name : String) : Bool :=
  match orgProbe name with
  | Except.ok _ => true
  | Except.error _ => false

/-- Oracle environment for `create_repo_and_push`: each field is one kind of
remote call.  `createFile path message content` returns the optional commit
SHA exposed by the response (`None` when the response shape exposes none);
`getHeadSha` is `repo.get_commits()[0].sha`. -/
structure CreateEnv where
  orgProbe : String → Except String Unit
  getOrgLogin : String → Except String String
  getUserLogin : String → Except String String
  getSelfLogin : Except String String
  createRepo : String → Except String String
  createFile : String → String → String → Except String (Option String)
  getHeadSha : Except String String

/-- Owner resolution of `create_repo_and_push`:
`user = gh.get_organization(owner) if is_org(gh, owner) else gh.get_user(owner)`
when `owner` is truthy, otherwise `gh.get_user()`.  Returns the login of the
resolved user/organization. -/
def resolveCreateLogin (env : CreateEnv) (owner : Option String) : Except String String :=
  match owner with
  | some o =>
    if o = "" then env.getSelfLogin
    else if is_org env.orgProbe o then env.getOrgLogin o else env.getUserLogin o
  | none => env.getSelfLogin

/-- The per-file loop of `create_repo_and_push`: for each `(path, content)` in
order, strip leading slashes, call `repo.create_file(p, f"Add {p}", content)`;
on success remember any exposed commit SHA, on exception re-raise (the
original cause, aborting the loop).  Returns the last exposed SHA (or the
propagated error) together with the trace of attempted writes. -/
def createFilesLoop (env : CreateEnv) :
    List (String × String) → Option String → Except String (Option String) × List WriteOp
  | [], last => (Except.ok last, [])
  | (path, content) :: rest, last =>
    let p := lstripSlash path
    let msg := "Add " ++ p
    match env.createFile p msg content with
    | Except.error e => (Except.error e, [WriteOp.create p msg content])
    | Except.ok shaOpt =>
      let last' := match shaOpt with
        | some s => some s
        | none => last
      let r := createFilesLoop env rest last'
      (r.1, WriteOp.create p msg content :: r.2)

/-- The post-loop commit-SHA determination shared by both synchronizer
functions: `try: last_commit_sha = repo.get_commits()[0].sha except:
last_commit_sha = last_commit_sha or ""`. -/
def finalSha (getHeadSha : Except String String) (last : Option String) : String :=
  match getHeadSha with
  | Except.ok s => s
  | Except.error _ =>
    match last with
    | some s => s
    | none => ""

/-- Outcome of a synchronizer run in round 1: the returned dictionary (or the
raised error) and the trace of attempted remote writes. -/
structure CreateOutcome where
  result : Except GhError SyncResult
  writes : List WriteOp
deriving DecidableEq, Repr

/-- `create_repo_and_push(token, repo_name, files, owner)`. -/
def create_repo_and_push (env : CreateEnv) (token repo_name : String)
    (files : List (String × String)) (owner : Option String) : CreateOutcome :=
  if token = "" then ⟨Except.error GhError.missingToken, []⟩
  else
    match resolveCreateLogin env owner with
    | Except.error e => ⟨Except.error (GhError.apiError e), []⟩
    | Except.ok login =>
      match env.createRepo repo_name with
      | Except.error e => ⟨Except.error (GhError.apiError e), []⟩
      | Except.ok htmlUrl =>
        match createFilesLoop env files none with
        | (Except.error e, ops) => ⟨Except.error (GhError.apiError e), ops⟩
        | (Except.ok last, ops) =>
          ⟨Except.ok ⟨htmlUrl, finalSha env.getHeadSha last, login⟩, ops⟩

/-- Oracle environment for `update_repo_and_push`.  `envOwner` is
`os.environ.get("GITHUB_OWNER")`; `selfLogin` is `gh.get_user().login` (an
error stands for the swallowed exception that sets `token_user = None`);
`fetchOrgRepo`/`fetchUserRepo` take the candidate owner and the repository
name and return `(html_url, owner_login)` of the fetched repository;
`getContents path` returns `repo.get_contents(path).sha`; `updateFile path
message content sha` and `createFile path message content` return the
optional commit SHA exposed by the response. -/
structure UpdateEnv where
  envOwner : Option String
  selfLogin : Except String String
  orgProbe : String → Except String Unit
  fetchOrgRepo : String → String → Except String (String × String)
  fetchUserRepo : String → String → Except String (String × String)
  getContents : String → Except String String
  updateFile : String → String → String → String → Except String (Option String)
  createFile : String → String → String → Except String (Option String)
  getHeadSha : Except String String

/-- `try: token_user = gh.get_user().login except Exception: token_user = None`. -/
def tokenUserOf (selfLogin : Except String String) : Option String :=
  match selfLogin with
  | Except.ok s => some s
  | Except.error _ => none

/-- The candidate-owner list of `update_repo_and_push`: the explicit `owner`
argument if truthy, then `GITHUB_OWNER` if truthy and not already present,
then the token user's login if truthy and not already present. -/
def ownersToTry (owner : Option String) (envOwner : Option String)
    (tokenUser : Option String) : List String :=
  let l0 : List String :=
    match owner with
    | some o => if o = "" then [] else [o]
    | none => []
  let l1 : List String :=
    match envOwner with
    | some e => if e = "" then l0 else if e ∈ l0 then l0 else l0 ++ [e]
    | none => l0
  match tokenUser with
  | some t => if t = "" then l1 else if t ∈ l1 then l1 else l1 ++ [t]
  | none => l1

/-- The repository fetch attempted for one candidate owner:
`gh.get_organization(candidate).get_repo(repo_name)` when `is_org(gh,
candidate)`, else `gh.get_user(candidate).get_repo(repo_name)`. -/
def fetchFor (env : UpdateEnv) (repo_name candidate : String) :
    Except String (String × String) :=
  if is_org env.orgProbe candidate then env.fetchOrgRepo candidate repo_name
  else env.fetchUserRepo candidate repo_name

/-- The repository-finding loop of `update_repo_and_push`: try each candidate
in order, swallowing exceptions, and stop at the first successful fetch.
Returns the found repository (if any) and the list of candidates actually
attempted. -/
def findRepo (env : UpdateEnv) (repo_name : String) :
    List String → Option (String × String) × List String
  | [] => (none, [])
  | c :: rest =>
    match fetchFor env repo_name c with
    | Except.ok r => (some r, [c])
    | Except.error _ =>
      let t := findRepo env repo_name rest
      (t.1, c :: t.2)

/-- Commit message `f"Add {p} (round {round_num})"`. -/
def addMsgRound (round_num : Nat) (p : String) : String :=
  "Add " ++ p ++ " (round " ++ toString round_num ++ ")"

/-- Commit message `f"Update {p} (round {round_num})"`. -/
def updateMsgRound (round_num : Nat) (p : String) : String :=
  "Update " ++ p ++ " (round " ++ toString round_num ++ ")"

/-- The per-file body of the update loop:
`try: existing = repo.get_contents(p); update_res = repo.update_file(p, msg,
content, existing.sha) except Exception: update_res = repo.create_file(p,
msg, content)`.  Any exception from the read or the update falls back to a
create; an exception from that create propagates.  Returns the optional
commit SHA exposed by the successful write (or the propagated error) and the
trace of attempted writes for this path. -/
def updateOneFile (env : UpdateEnv) (round_num : Nat) (path content : String) :
    Except String (Option String) × List WriteOp :=
  let p := lstripSlash path
  match env.getContents p with
  | Except.ok sha =>
    match env.updateFile p (updateMsgRound round_num p) content sha with
    | Except.ok shaOpt =>
      (Except.ok shaOpt, [WriteOp.update p (updateMsgRound round_num p) content sha])
    | Except.error _ =>
      match env.createFile p (addMsgRound round_num p) content with
      | Except.ok shaOpt =>
        (Except.ok shaOpt,
          [WriteOp.update p (updateMsgRound round_num p) content sha,
           WriteOp.create p (addMsgRound round_num p) content])
      | Except.error e =>
        (Except.error e,
          [WriteOp.update p (updateMsgRound round_num p) content sha,
           WriteOp.create p (addMsgRound round_num p) content])
  | Except.error _ =>
    match env.createFile p (addMsgRound round_num p) content with
    | Except.ok shaOpt => (Except.ok shaOpt, [WriteOp.create p (addMsgRound round_num p) content])
    | Except.error e => (Except.error e, [WriteOp.create p (addMsgRound round_num p) content])

/-- The file loop of `update_repo_and_push`: process each `(path, content)` in
order with `updateOneFile`, remembering the last exposed commit SHA; an
uncaught exception aborts the loop. -/
def updateFilesLoop (env : UpdateEnv) (round_num : Nat) :
    List (String × String) → Option String → Except String (Option String) × List WriteOp
  | [], last => (Except.ok last, [])
  | (path, content) :: rest, last =>
    match updateOneFile env round_num path content with
    | (Except.error e, ops) => (Except.error e, ops)
    | (Except.ok shaOpt, ops) =>
      let last' := match shaOpt with
        | some s => some s
        | none => last
      let t := updateFilesLoop env round_num rest last'
      (t.1, ops ++ t.2)

/-- Outcome of a later-round synchronizer run: the returned dictionary (or
the raised error), the candidate owners attempted by the repository-finding
loop, and the trace of attempted remote writes. -/
structure UpdateOutcome where
  result : Except GhError SyncResult
  triedOwners : List String
  writes : List WriteOp
deriving DecidableEq, Repr

/-- `update_repo_and_push(token, repo_name, files, owner, round_num)`. -/
def update_repo_and_push (env : UpdateEnv) (token repo_name : String)
    (files : List (String × String)) (owner : Option String) (round_num : Nat) :
    UpdateOutcome :=
  if token = "" then ⟨Except.error GhError.missingToken, [], []⟩
  else
    let cands := ownersToTry owner env.envOwner (tokenUserOf env.selfLogin)
    match findRepo env repo_name cands with
    | (none, tried) => ⟨Except.error (GhError.repoNotFound repo_name cands), tried, []⟩
    | (some repo, tried) =>
      match updateFilesLoop env round_num files none with
      | (Except.error e, ops) => ⟨Except.error (GhError.apiError e), tried, ops⟩
      | (Except.ok last, ops) =>
        ⟨Except.ok ⟨repo.1, finalSha env.getHeadSha last, repo.2⟩, tried, ops⟩

/-- The retry loop of `post_with_backoff`: `while attempt < max_attempts`,
modelled with `fuel = max_attempts - attempt`.  The oracle gives the result
of the POST on each (1-based) attempt: a status code or a raised network
exception; both a non-200 status and an exception fall through to
`time.sleep(delay); delay *= 2`.  Returns the boolean result, the number of
attempts performed, and the list of sleeps (in seconds) in order. -/
def postLoop (post : Nat → Except String Nat) :
    Nat → Nat → Nat → Bool × Nat × List Nat
  | _, attempt, 0 => (false, attempt, [])
  | delay, attempt, fuel + 1 =>
    if post (attempt + 1) = Except.ok 200 then (true, attempt + 1, [])
    else
      let r := postLoop post (delay * 2) (attempt + 1) fuel
      (r.1, r.2.1, delay :: r.2.2)

/-- `if headers is None: headers = {"Content-Type": "application/json"}`. -/
def headersOrDefault (headers : Option (List (String × String))) : List (String × String) :=
  match headers with
  | none => [("Content-Type", "application/json")]
  | some h => h

/-- `post_with_backoff(url, json_payload, headers, max_attempts)`.  The `post`
oracle abstracts `requests.post(url, json=json_payload, headers=headers,
timeout=30)`, taking the payload, the headers and the attempt number.
Returns the boolean result, the number of POST attempts performed (network
calls), and the list of sleeps. -/
def post_with_backoff
    (post : List (String × String) → List (String × String) → Nat → Except String Nat)
    (url : String) (json_payload : List (String × String))
    (headers : Option (List (String × String))) (max_attempts : Nat) :
    Bool × Nat × List Nat :=
  let hdrs := headersOrDefault headers
  if url = "TESTING" then (true, 0, [])
  else postLoop (post json_payload hdrs) 1 0 max_attempts

/-- An HTTP response as observed by `deploy_github_pages`: its status code and
its body — `none` for an empty body, `some (Except.ok j)` for a body parsing
to the JSON mapping `j`, `some (Except.error e)` for a body on which
`resp.json()` raises. -/
structure HttpResp where
  status : Nat
  content : Option (Except String (List (String × String)))
deriving DecidableEq

/-- Log level emitted by `deploy_github_pages` for the response it received. -/
inductive PagesLog where
  | info : PagesLog
  | warning : PagesLog
deriving DecidableEq, Repr

/-- `logger.info` on `resp.status_code in (201, 202, 200)`, else `logger.warning`. -/
def logOf (status : Nat) : PagesLog :=
  if status ∈ [201, 202, 200] then PagesLog.info else PagesLog.warning

/-- `deploy_github_pages(owner, repo, token, round_num)`.  `postPages` is the
round-1 POST to `/repos/{owner}/{repo}/pages`, `postBuilds` the later-round
POST to `/repos/{owner}/{repo}/pages/builds`; an `Except.error` stands for a
transport-level exception raised by `requests.post` itself.  Returns the
value of `resp.json() if resp.content else {}` (or the raised error) and the
log events emitted. -/
def deploy_github_pages (postPages postBuilds : Except String HttpResp)
    (owner repo token : String) (round_num : Nat) :
    Except String (List (String × String)) × List PagesLog :=
  match (if round_num = 1 then postPages else postBuilds) with
  | Except.error e => (Except.error e, [])
  | Except.ok resp =>
    match resp.content with
    | none => (Except.ok [], [logOf resp.status])
    | some (Except.ok j) => (Except.ok j, [logOf resp.status])
    | some (Except.error e) => (Except.error e, [logOf resp.status])

/-- The polling loop of `wait_for_pages_ready`, on a virtual clock: the first
argument is the remaining time `timeout_seconds - elapsed` (each iteration
polls once, then sleeps 2 seconds), the second the index of the next poll.
`get i` is the result of the `i`-th `requests.get(pages_url, timeout=5)`: a
status code, or a raised exception (swallowed by `except: pass`). -/
def waitLoop (get : Nat → Except String Nat) : Nat → Nat → Bool
  | 0, _ => false
  | 1, i =>
    if get i = Except.ok 200 then true
    else waitLoop get 0 (i + 1)
  | remaining + 2, i =>
    if get i = Except.ok 200 then true
    else waitLoop get remaining (i + 1)

/-- `wait_for_pages_ready(pages_url, timeout_seconds)`. -/
def wait_for_pages_ready (get : Nat → Except String Nat) (timeout_seconds : Nat) : Bool :=
  waitLoop get timeout_seconds 0

/-- The `MIT_LICENSE_TEXT` module constant of `generator.py`, an f-string over
the current year and the `GITHUB_OWNER` environment value. -/
def MIT_LICENSE_TEXT (current_year : Nat) (owner : String) : String :=
  "\nMIT License\n\nCopyright (c) " ++ toString current_year ++ " " ++ owner ++
  "\n\nPermission is hereby granted, free of charge, to any person obtaining a copy\n" ++
  "of this software and associated documentation files (the \"Software\"), to deal\n" ++
  "in the Software without restriction, including without limitation the rights\n" ++
  "to use, copy, modify, merge, publish, distribute, sublicense, and/or sell\n" ++
  "copies of the Software, and to permit persons to whom the Software is\n" ++
  "furnished to do so, subject to the following conditions:\n\n" ++
  "The above copyright notice and this permission notice shall be included in all\n" ++
  "copies or substantial portions of the Software.\n\n" ++
  "THE SOFTWARE IS PROVIDED \"AS IS\", WITHOUT WARRANTY OF ANY KIND, EXPRESS OR\n" ++
  "IMPLIED, INCLUDING BUT NOT LIMITED TO THE WARRANTIES OF MERCHANTABILITY,\n" ++
  "FITNESS FOR A PARTICULAR PURPOSE AND NONINFRINGEMENT. IN NO EVENT SHALL THE\n" ++
  "AUTHORS OR COPYRIGHT HOLDERS BE LIABLE FOR ANY CLAIM, DAMAGES OR OTHER\n" ++
  "LIABILITY, WHETHER IN AN ACTION OF CONTRACT, TORT OR OTHERWISE, ARISING FROM,\n" ++
  "OUT OF OR IN CONNECTION WITH THE SOFTWARE OR THE USE OR OTHER DEALINGS IN THE\n" ++
  "SOFTWARE.\n"

/-- `get_repo_files(token, repo_name, owner)`: resolve the repository
(`repoLookup`; an error stands for an exception raised by the lookup) and
read `index.html` and `README.md`, each defaulting to `""` when
`repo.get_contents` raises. -/
def get_repo_files (repoLookup : Except String Unit)
    (getContents : String → Except String String) :
    Except String (List (String × String)) :=
  match repoLookup with
  | Except.error e => Except.error e
  | Except.ok _ =>
    Except.ok
      [("index.html",
         match getContents "index.html" with
         | Except.ok c => c
         | Except.error _ => ""),
       ("README.md",
         match getContents "README.md" with
         | Except.ok c => c
         | Except.error _ => "")]

/-- Python `files.update(m)` on dictionaries represented as association
lists: values of keys present in `m` are replaced, new keys of `m` are
appended in order. -/
def dictUpdate (d m : List (String × String)) : List (String × String) :=
  d.map (fun kv =>
    match m.find? (fun kv2 => kv2.1 == kv.1) with
    | some kv2 => (kv.1, kv2.2)
    | none => kv)
  ++ m.filter (fun kv2 => ! d.any (fun kv => kv.1 == kv2.1))

/-- Oracle environment for `generate_project_files`.  `useOpenAI` is
`bool(OPENAI_API_KEY)`; `repoLookup`/`getContents` feed the round-≥2
`get_repo_files` call; `llm` is the combined outcome of the OpenAI call and
`eval(message)` — an error stands for any exception in that span, caught by
the `except` that only prints. -/
structure GenEnv where
  useOpenAI : Bool
  repoLookup : Except String Unit
  getContents : String → Except String String
  llm : Except String (List (String × String))

/-- `generate_project_files(brief, attachments, checks, task, repo_name,
round_num)` of `generator.py` (`current_year` and `owner` are the module-level
environment values). -/
def generate_project_files (env : GenEnv) (brief : String)
    (attachments : List (List (String × String))) (checks : List String)
    (task : String) (repo_name : String) (round_num : Nat)
    (current_year : Nat) (owner : String) : List (String × String) :=
  let files : List (String × String) :=
    if env.useOpenAI then
      if round_num = 1 then
        match env.llm with
        | Except.ok m => dictUpdate [] m
        | Except.error _ => []
      else
        match get_repo_files env.repoLookup env.getContents with
        | Except.error _ => []
        | Except.ok rf =>
          match env.llm with
          | Except.ok m => dictUpdate rf m
          | Except.error _ => rf
    else []
  if files = [] then
    [("index.html", "<html><body><h1>" ++ task ++ "</h1><pre>" ++ brief ++ "</pre></body></html>"),
     ("README.md", "# " ++ task ++ "\n\n" ++ brief ++ "\n"),
     ("LICENSE", MIT_LICENSE_TEXT current_year owner)]
  else files

/-- A concrete later-round oracle: the repository lives under the token
user's login `me`; the remote file `a.txt` exists with blob SHA `sha0` but
its update raises `409 Conflict`; creates of `a.txt` and `b.txt` succeed
(exposing commit SHAs); any other path neither reads nor creates. -/
def envUpd : UpdateEnv where
  envOwner := none
  selfLogin := Except.ok "me"
  orgProbe := fun _ => Except.error "404"
  fetchOrgRepo := fun _ _ => Except.error "404"
  fetchUserRepo := fun c n =>
    if c = "me" && n = "site" then Except.ok ("https://github.com/me/site", "me")
    else Except.error "404"
  getContents := fun p => if p = "a.txt" then Except.ok "sha0" else Except.error "404"
  updateFile := fun _ _ _ _ => Except.error "409 Conflict"
  createFile := fun p _ _ =>
    if p = "a.txt" then Except.ok (some "s1")
    else if p = "b.txt" then Except.ok (some "s2")
    else Except.error "422"
  getHeadSha := Except.ok "headsha"

/-- A concrete round-1 oracle in which every per-file write succeeds and
exposes the commit SHA `sha-file`, while the commit-history query returns a
different head SHA `sha-head`. -/
def envC7 : CreateEnv where
  orgProbe := fun _ => Except.error "404"
  getOrgLogin := fun _ => Except.error "404"
  getUserLogin := fun _ => Except.error "404"
  getSelfLogin := Except.ok "me"
  createRepo := fun _ => Except.ok "https://github.com/me/site"
  createFile := fun _ _ _ => Except.ok (some "sha-file")
  getHeadSha := Except.ok "sha-head"

/-- A concrete round-1 oracle in which the write of `f1` succeeds without
exposing a commit SHA and every other write raises `boom`. -/
def envCreateFail : CreateEnv where
  orgProbe := fun _ => Except.error "404"
  getOrgLogin := fun _ => Except.error "404"
  getUserLogin := fun _ => Except.error "404"
  getSelfLogin := Except.ok "me"
  createRepo := fun _ => Except.ok "https://github.com/me/site"
  createFile := fun p _ _ => if p = "f1" then Except.ok (some "s1") else Except.error "boom"
  getHeadSha := Except.ok "headsha"

/-- A concrete later-round oracle for owner resolution: candidates are the
explicit owner `A`, the environment owner `B` and the token login `C`; only
`B` has the repository. -/
def envC3 : UpdateEnv where
  envOwner := some "B"
  selfLogin := Except.ok "C"
  orgProbe := fun _ => Except.error "404"
  fetchOrgRepo := fun _ _ => Except.error "404"
  fetchUserRepo := fun c _ =>
    if c = "B" then Except.ok ("https://github.com/B/site", "B") else Except.error "404"
  getContents := fun _ => Except.error "404"
  updateFile := fun _ _ _ _ => Except.error "404"
  createFile := fun _ _ _ => Except.ok none
  getHeadSha := Except.ok "headsha"

/-- A concrete generator oracle for a later round: the prior-round files are
fetched successfully, then the OpenAI call raises. -/
def envGen : GenEnv where
  useOpenAI := true
  repoLookup := Except.ok ()
  getContents := fun f =>
    if f = "index.html" then Except.ok "<old index>"
    else if f = "README.md" then Except.ok "old readme"
    else Except.error "404"
  llm := Except.error "APIConnectionError"

/-- A concrete generator oracle with no OpenAI key configured. -/
def envGenOff : GenEnv where
  useOpenAI := false
  repoLookup := Except.ok ()
  getContents := fun _ => Except.error "404"
  llm := Except.error "no key"

theorem dropWhile_self_idem (p : Char → Bool) :
    ∀ l : List Char, List.dropWhile p (List.dropWhile p l) = List.dropWhile p l := by
  intro l
  induction l with
  | nil => rfl
  | cons a l ih =>
    by_cases h : p a <;> simp [List.dropWhile_cons, h, ih]

theorem lstripSlash_idem (s : String) : lstripSlash (lstripSlash s) = lstripSlash s := by
  unfold lstripSlash
  exact congrArg String.mk (dropWhile_self_idem _ s.toList)

/-- Claim C9: with the sentinel URL `"TESTING"`, `post_with_backoff` returns
`True` immediately, for every payload, headers value and `max_attempts`,
performing zero POST attempts (network calls) and no sleep. -/
theorem post_with_backoff_sentinel
    (post : List (String × String) → List (String × String) → Nat → Except String Nat)
    (json_payload : List (String × String)) (headers : Option (List (String × String)))
    (max_attempts : Nat) :
    post_with_backoff post "TESTING" json_payload headers max_attempts = (true, 0, []) := by
  rfl

/-- Claim C7 (code bug, evaluated at the failing input): every per-file write
exposes the commit SHA `sha-file`, yet the returned `commit_sha` is the head
`sha-head` of the commit-history query — the code queries the history
unconditionally and overrides the per-file SHA, instead of falling back to
the history only when no per-file write exposed a SHA. -/
theorem commit_sha_head_override :
    envC7.createFile "index.html" "Add index.html" "hi" = Except.ok (some "sha-file") ∧
    (create_repo_and_push envC7 "t" "site" [("index.html", "hi")] none).result
      = Except.ok ⟨"https://github.com/me/site", "sha-head", "me"⟩ ∧
    "sha-head" ≠ "sha-file" := by
  refine ⟨rfl, by decide, by decide⟩

/-- Claim C1 counterexample: in the update operation, the remote write for
`a.txt` (its update) fails, yet the later path `b.txt` is still written and a
result is returned — the failed update falls back to a create, which
succeeds, so the synchronization continues instead of aborting. -/
theorem update_write_failure_continues_cex :
    envUpd.updateFile "a.txt" (updateMsgRound 2 "a.txt") "x" "sha0" = Except.error "409 Conflict" ∧
    (update_repo_and_push envUpd "t" "site" [("a.txt", "x"), ("b.txt", "y")] none 2).result
      = Except.ok ⟨"https://github.com/me/site", "headsha", "me"⟩ ∧
    WriteOp.create "b.txt" (addMsgRound 2 "b.txt") "y"
      ∈ (update_repo_and_push envUpd "t" "site" [("a.txt", "x"), ("b.txt", "y")] none 2).writes := by
  refine ⟨rfl, by decide, by decide⟩

/-- Claim C2 counterexample: the remote file `a.txt` exists (its read
succeeds with SHA `sha0`) and the precondition-carrying update raises a
conflict, yet no error is surfaced — the code attempts a create of the same
path, which succeeds, so the sync returns a result and a create was
performed although the remote file was present. -/
theorem update_conflict_fallback_cex :
    envUpd.getContents "a.txt" = Except.ok "sha0" ∧
    envUpd.updateFile "a.txt" (updateMsgRound 2 "a.txt") "x" "sha0" = Except.error "409 Conflict" ∧
    (update_repo_and_push envUpd "t" "site" [("a.txt", "x")] none 2).result
      = Except.ok ⟨"https://github.com/me/site", "headsha", "me"⟩ ∧
    WriteOp.create "a.txt" (addMsgRound 2 "a.txt") "x"
      ∈ (update_repo_and_push envUpd "t" "site" [("a.txt", "x")] none 2).writes := by
  refine ⟨rfl, rfl, by decide, by decide⟩

/-- Claim C5 counterexample: a transport-level failure of the POST itself
(here a connection error in round 1) propagates to the caller as a raised
exception, instead of being logged and swallowed. -/
theorem deploy_pages_raises_cex :
    deploy_github_pages (Except.error "ConnectionError") (Except.ok ⟨201, none⟩) "o" "r" "t" 1
      = (Except.error "ConnectionError", []) := by
  rfl

/-- Claim C6 counterexample: in a later round, the prior-round files are
fetched and then generation fails, so the function returns just the fetched
`index.html`/`README.md` mapping — the deterministic fallback is skipped
because the mapping is non-empty, and `LICENSE` is missing. -/
theorem generate_files_missing_license_cex :
    (generate_project_files envGen "b" [] [] "t" "site" 2 2025 "student").map Prod.fst
      = ["index.html", "README.md"] ∧
    (generate_project_files envGen "b" [] [] "t" "site" 2 2025 "student").lookup "LICENSE"
      = none := by
  refine ⟨by decide, by decide⟩

/-- Claim C5 (amended): whenever the POST itself returns a response (no
transport failure) and the body is empty or parses as JSON, the pages
activation never raises: it returns the response mapping (`{}` for an empty
body), logging statuses 200/201/202 as success and any other status as a
warning.  A transport-level failure of the POST, or a body on which JSON
parsing raises, propagates to the caller. -/
theorem deploy_pages_best_effort_amended (postPages postBuilds : Except String HttpResp)
    (owner repo token : String) (round_num : Nat) (resp : HttpResp)
    (hresp : (if round_num = 1 then postPages else postBuilds) = Except.ok resp) :
    ((resp.content = none →
        deploy_github_pages postPages postBuilds owner repo token round_num
          = (Except.ok [], [logOf resp.status])) ∧
      (∀ j, resp.content = some (Except.ok j) →
        deploy_github_pages postPages postBuilds owner repo token round_num
          = (Except.ok j, [logOf resp.status]))) ∧
    ((resp.status = 200 ∨ resp.status = 201 ∨ resp.status = 202) →
        logOf resp.status = PagesLog.info) ∧
    (¬(resp.status = 200 ∨ resp.status = 201 ∨ resp.status = 202) →
        logOf resp.status = PagesLog.warning) := by
  refine ⟨⟨?_, ?_⟩, ?_, ?_⟩
  · intro hc
    unfold deploy_github_pages
    rw [hresp]
    simp [hc]
  · intro j hc
    unfold deploy_github_pages
    rw [hresp]
    simp [hc]
  · intro h
    unfold logOf
    rcases h with h | h | h <;> simp [h]
  · intro h
    push_neg at h
    unfold logOf
    simp [h.1, h.2.1, h.2.2]

/-- The amended C5 theorem applied at a concrete input: a later-round rebuild
POST answered with status 500 and an empty body yields the empty mapping and
a warning log, with no raised exception. -/
theorem deploy_pages_best_effort_amended_witness :
    deploy_github_pages (Except.error "unused") (Except.ok ⟨500, none⟩) "o" "r" "t" 2
      = (Except.ok [], [PagesLog.warning]) := by
  have h := deploy_pages_best_effort_amended (Except.error "unused") (Except.ok ⟨500, none⟩)
    "o" "r" "t" 2 ⟨500, none⟩ (by decide)
  have h1 := h.1.1 rfl
  have h2 := h.2.2 (by decide)
  rw [h1, h2]

/-- Claim C6 (amended): the deterministic fallback `{index.html, README.md,
LICENSE}` is returned exactly when the generation phase yields no files at
all — no OpenAI key is configured, or round-1 generation raises, or the
later-round fetch of the prior files raises before anything was obtained.
When generation leaves a non-empty mapping, that mapping is returned as is
and need not contain all three keys. -/
theorem generate_files_fallback_amended (env : GenEnv) (brief : String)
    (attachments : List (List (String × String))) (checks : List String)
    (task repo_name : String) (round_num current_year : Nat) (owner : String)
    (h : env.useOpenAI = false ∨ (round_num = 1 ∧ ∃ e, env.llm = Except.error e) ∨
      (round_num ≠ 1 ∧ ∃ e, env.repoLookup = Except.error e)) :
    generate_project_files env brief attachments checks task repo_name round_num
        current_year owner
      = [("index.html",
            "<html><body><h1>" ++ task ++ "</h1><pre>" ++ brief ++ "</pre></body></html>"),
         ("README.md", "# " ++ task ++ "\n\n" ++ brief ++ "\n"),
         ("LICENSE", MIT_LICENSE_TEXT current_year owner)] := by
  unfold generate_project_files
  rcases h with h | ⟨hr, e, he⟩ | ⟨hr, e, he⟩
  · simp [h]
  · simp [hr, he]
  · simp [hr, get_repo_files, he]

/-- The amended C6 theorem applied at a concrete input: with no OpenAI key,
round 1 returns exactly the fallback files. -/
theorem generate_files_fallback_amended_witness :
    generate_project_files envGenOff "my brief" [] [] "my task" "site" 1 2025 "student"
      = [("index.html", "<html><body><h1>my task</h1><pre>my brief</pre></body></html>"),
         ("README.md", "# my task\n\nmy brief\n"),
         ("LICENSE", MIT_LICENSE_TEXT 2025 "student")] := by
  exact generate_files_fallback_amended envGenOff "my brief" [] [] "my task" "site" 1 2025
    "student" (Or.inl rfl)

theorem findRepo_all_fail (env : UpdateEnv) (repo_name : String) :
    ∀ cands : List String,
      (∀ c ∈ cands, ∃ e, fetchFor env repo_name c = Except.error e) →
      findRepo env repo_name cands = (none, cands) := by
  intro cands
  induction cands with
  | nil => intro _; rfl
  | cons c rest ih =>
    intro h
    obtain ⟨e, he⟩ := h c (List.mem_cons_self c rest)
    unfold findRepo
    rw [he]
    simp [ih (fun a ha => h a (List.mem_cons_of_mem c ha))]

theorem findRepo_first_success (env : UpdateEnv) (repo_name : String) (r : String × String) :
    ∀ (pre : List String) (b : String) (post : List String),
      (∀ a ∈ pre, ∃ e, fetchFor env repo_name a = Except.error e) →
      fetchFor env repo_name b = Except.ok r →
      findRepo env repo_name (pre ++ b :: post) = (some r, pre ++ [b]) := by
  intro pre
  induction pre with
  | nil =>
    intro b post _ hb
    simp only [List.nil_append]
    unfold findRepo
    simp [hb]
  | cons a pre' ih =>
    intro b post h hb
    obtain ⟨e, he⟩ := h a (List.mem_cons_self a pre')
    show findRepo env repo_name (a :: (pre' ++ b :: post)) = _
    unfold findRepo
    rw [he]
    simp [ih b post (fun x hx => h x (List.mem_cons_of_mem a hx)) hb]

theorem nodup_step (l : List String) (x : Option String) (h : l.Nodup) :
    (match x with
     | some e => if e = "" then l else if e ∈ l then l else l ++ [e]
     | none => l).Nodup := by
  cases x with
  | none => exact h
  | some e =>
    by_cases h1 : e = ""
    · simpa [h1]
    · by_cases h2 : e ∈ l
      · simpa [h1, h2]
      · simp only [h1, h2, if_false, if_neg]
        simpa [List.nodup_append, h2] using h

theorem ownersToTry_nodup (owner envOwner tokenUser : Option String) :
    (ownersToTry owner envOwner tokenUser).Nodup := by
  have h0 : (match owner with
      | some o => if o = "" then ([] : List String) else [o]
      | none => []).Nodup := by
    cases owner with
    | none => exact List.nodup_nil
    | some o => by_cases ho : o = "" <;> simp [ho]
  exact nodup_step _ tokenUser (nodup_step _ envOwner h0)

/-- Claim C3: the update-round synchronizer's candidate-owner list (explicit
owner, then `GITHUB_OWNER`, then the token login, skipping duplicates) has no
duplicates; the first candidate whose repository fetch succeeds is selected
and no later candidate is attempted; and when every candidate's fetch fails
the operation raises a "repository not found" error naming all tried
owners. -/
theorem owner_resolution_order (env : UpdateEnv) (token repo_name : String)
    (files : List (String × String)) (owner : Option String) (round_num : Nat)
    (htok : token ≠ "") :
    (ownersToTry owner env.envOwner (tokenUserOf env.selfLogin)).Nodup ∧
    (∀ (pre : List String) (b : String) (post : List String) (r : String × String),
      ownersToTry owner env.envOwner (tokenUserOf env.selfLogin) = pre ++ b :: post →
      (∀ a ∈ pre, ∃ e, fetchFor env repo_name a = Except.error e) →
      fetchFor env repo_name b = Except.ok r →
      (update_repo_and_push env token repo_name files owner round_num).triedOwners
        = pre ++ [b]) ∧
    ((∀ a ∈ ownersToTry owner env.envOwner (tokenUserOf env.selfLogin),
        ∃ e, fetchFor env repo_name a = Except.error e) →
      (update_repo_and_push env token repo_name files owner round_num).result
        = Except.error (GhError.repoNotFound repo_name
            (ownersToTry owner env.envOwner (tokenUserOf env.selfLogin))) ∧
      (update_repo_and_push env token repo_name files owner round_num).triedOwners
        = ownersToTry owner env.envOwner (tokenUserOf env.selfLogin)) := by
  refine ⟨ownersToTry_nodup _ _ _, ?_, ?_⟩
  · intro pre b post r hc hpre hb
    unfold update_repo_and_push
    rw [if_neg htok]
    simp only [hc, findRepo_first_success env repo_name r pre b post hpre hb]
    rcases hu : updateFilesLoop env round_num files none with ⟨res, ops⟩
    cases res <;> simp [hu]
  · intro h
    unfold update_repo_and_push
    rw [if_neg htok]
    simp only [findRepo_all_fail env repo_name _ h]
    refine ⟨?_, ?_⟩ <;> first | rfl | trivial

/-- The C3 theorem applied at a concrete input: candidates `[A, B, C]` where
only `B` has the repository; the synchronizer attempts exactly `[A, B]`. -/
theorem owner_resolution_order_witness :
    (update_repo_and_push envC3 "t" "site" [] (some "A") 2).triedOwners = ["A", "B"] := by
  have h := (owner_resolution_order envC3 "t" "site" [] (some "A") 2 (by decide)).2.1
  exact h ["A"] "B" ["C"] ("https://github.com/B/site", "B") (by decide)
    (by
      intro a ha
      simp only [List.mem_singleton] at ha
      subst ha
      exact ⟨"404", by decide⟩)
    (by decide)

theorem pow_range_shift (t n : Nat) :
    (List.range (n + 1)).map (fun i => 2 ^ (t + i))
      = 2 ^ t :: (List.range n).map (fun i => 2 ^ (t + 1 + i)) := by
  rw [List.range_succ_eq_map, List.map_cons, List.map_map]
  simp only [Nat.add_zero, List.cons.injEq, true_and]
  apply List.map_congr_left
  intro a _
  simp only [Function.comp_apply]
  congr 1
  omega

theorem postLoop_attempt_le (q : Nat → Except String Nat) :
    ∀ (fuel attempt delay : Nat), (postLoop q delay attempt fuel).2.1 ≤ attempt + fuel := by
  intro fuel
  induction fuel with
  | zero => intro attempt delay; simp [postLoop]
  | succ n ih =>
    intro attempt delay
    unfold postLoop
    by_cases h : q (attempt + 1) = Except.ok 200
    · simp [h]
    · rw [if_neg h]
      have := ih (attempt + 1) (delay * 2)
      simp only []
      omega

theorem postLoop_all_fail (q : Nat → Except String Nat) :
    ∀ (fuel attempt t : Nat),
      (∀ j, attempt < j → j ≤ attempt + fuel → q j ≠ Except.ok 200) →
      postLoop q (2 ^ t) attempt fuel
        = (false, attempt + fuel, (List.range fuel).map (fun i => 2 ^ (t + i))) := by
  intro fuel
  induction fuel with
  | zero => intro attempt t _; simp [postLoop]
  | succ n ih =>
    intro attempt t h
    have hfail : q (attempt + 1) ≠ Except.ok 200 := h _ (by omega) (by omega)
    unfold postLoop
    rw [if_neg hfail]
    have h2 : (2 : Nat) ^ t * 2 = 2 ^ (t + 1) := by rw [pow_succ]
    rw [h2, ih (attempt + 1) (t + 1) (fun j hj1 hj2 => h j (by omega) (by omega))]
    have hl : attempt + 1 + n = attempt + (n + 1) := by omega
    rw [pow_range_shift, hl]

theorem postLoop_first_success (q : Nat → Except String Nat) :
    ∀ (fuel attempt t k : Nat), attempt < k → k ≤ attempt + fuel →
      (∀ j, attempt < j → j < k → q j ≠ Except.ok 200) →
      q k = Except.ok 200 →
      postLoop q (2 ^ t) attempt fuel
        = (true, k, (List.range (k - attempt - 1)).map (fun i => 2 ^ (t + i))) := by
  intro fuel
  induction fuel with
  | zero => intro attempt t k h1 h2 _ _; omega
  | succ n ih =>
    intro attempt t k h1 h2 hfail hk
    by_cases hke : k = attempt + 1
    · subst hke
      unfold postLoop
      rw [if_pos hk]
      simp
    · have hne : q (attempt + 1) ≠ Except.ok 200 := hfail _ (by omega) (by omega)
      unfold postLoop
      rw [if_neg hne]
      have h2' : (2 : Nat) ^ t * 2 = 2 ^ (t + 1) := by rw [pow_succ]
      rw [h2', ih (attempt + 1) (t + 1) k (by omega) (by omega)
        (fun j hj1 hj2 => hfail j (by omega) hj2) hk]
      have hs : k - attempt - 1 = (k - attempt - 2) + 1 := by omega
      rw [hs, pow_range_shift]
      have hidx : k - (attempt + 1) - 1 = k - attempt - 2 := by omega
      rw [hidx]

/-- Claim C4: `post_with_backoff` makes at most `max_attempts` POST attempts;
if the first `k-1` attempts fail (non-200 response or network exception) and
attempt `k ≤ max_attempts` returns status 200, it returns `True` after
exactly `k` attempts, having slept 1,2,4,...,2^(k-2) seconds between
attempts; if all `max_attempts` attempts fail it returns `False` after
exactly `max_attempts` attempts, with sleeps 1,2,4,...,2^(max_attempts-1)
(the delay doubles starting at 1 second; the sleeps between consecutive
attempts are the first `max_attempts - 1` of these). -/
theorem post_with_backoff_spec
    (post : List (String × String) → List (String × String) → Nat → Except String Nat)
    (url : String) (json_payload : List (String × String))
    (headers : Option (List (String × String))) (max_attempts : Nat)
    (hurl : url ≠ "TESTING") :
    (post_with_backoff post url json_payload headers max_attempts).2.1 ≤ max_attempts ∧
    (∀ k, 1 ≤ k → k ≤ max_attempts →
      (∀ j, 1 ≤ j → j < k →
        post json_payload (headersOrDefault headers) j ≠ Except.ok 200) →
      post json_payload (headersOrDefault headers) k = Except.ok 200 →
      post_with_backoff post url json_payload headers max_attempts
        = (true, k, (List.range (k - 1)).map (fun i => 2 ^ i))) ∧
    ((∀ j, 1 ≤ j → j ≤ max_attempts →
        post json_payload (headersOrDefault headers) j ≠ Except.ok 200) →
      post_with_backoff post url json_payload headers max_attempts
        = (false, max_attempts, (List.range max_attempts).map (fun i => 2 ^ i))) := by
  unfold post_with_backoff
  rw [if_neg hurl]
  have h1 : (1 : Nat) = 2 ^ 0 := rfl
  refine ⟨?_, ?_, ?_⟩
  · have := postLoop_attempt_le (post json_payload (headersOrDefault headers)) max_attempts 0 1
    simpa using this
  · intro k hk1 hk2 hf hs
    rw [h1, postLoop_first_success _ max_attempts 0 0 k (by omega) (by omega)
      (fun j hj1 hj2 => hf j (by omega) hj2) hs]
    simp
  · intro hf
    rw [h1, postLoop_all_fail _ max_attempts 0 0 (fun j hj1 hj2 => hf j (by omega) (by omega))]
    simp

/-- The C4 theorem applied at a concrete input: a server that always answers
status 500 with `max_attempts = 4` yields exactly 4 attempts, sleeps of
1, 2, 4 seconds between attempts (and a final sleep of 8), and `False`. -/
theorem post_with_backoff_spec_witness :
    post_with_backoff (fun _ _ _ => Except.ok 500) "http://e" [] none 4
      = (false, 4, [1, 2, 4, 8]) := by
  have h := (post_with_backoff_spec (fun _ _ _ => Except.ok 500) "http://e" [] none 4
    (by decide)).2.2 (fun j _ _ => by decide)
  rw [h]
  decide

theorem waitLoop_all_fail (get : Nat → Except String Nat) :
    ∀ remaining i, (∀ j, i ≤ j → 2 * (j - i) < remaining → get j ≠ Except.ok 200) →
      waitLoop get remaining i = false := by
  intro remaining
  induction remaining using Nat.strong_induction_on with
  | _ remaining ih =>
    match remaining with
    | 0 => intro i _; rfl
    | 1 =>
      intro i h
      have hi : get i ≠ Except.ok 200 := h i (le_refl i) (by omega)
      unfold waitLoop
      rw [if_neg hi]
      rfl
    | n + 2 =>
      intro i h
      have hi : get i ≠ Except.ok 200 := h i (le_refl i) (by omega)
      unfold waitLoop
      rw [if_neg hi]
      exact ih n (by omega) (i + 1) (fun j hj1 hj2 => h j (by omega) (by omega))

theorem waitLoop_first_success (get : Nat → Except String Nat) :
    ∀ remaining i k, i ≤ k → 2 * (k - i) < remaining →
      get k = Except.ok 200 →
      (∀ j, i ≤ j → j < k → get j ≠ Except.ok 200) →
      waitLoop get remaining i = true := by
  intro remaining
  induction remaining using Nat.strong_induction_on with
  | _ remaining ih =>
    match remaining with
    | 0 => intro i k _ h2 _ _; omega
    | 1 =>
      intro i k h1 h2 hk hfail
      have hik : k = i := by omega
      subst hik
      unfold waitLoop
      rw [if_pos hk]
    | n + 2 =>
      intro i k h1 h2 hk hfail
      by_cases hik : k = i
      · subst hik
        unfold waitLoop
        rw [if_pos hk]
      · have hi : get i ≠ Except.ok 200 := hfail i (le_refl i) (by omega)
        unfold waitLoop
        rw [if_neg hi]
        exact ih n (by omega) (i + 1) k (by omega) (by omega) hk
          (fun j hj1 hj2 => hfail j (by omega) hj2)

/-- Claim C8: `wait_for_pages_ready` polls every 2 seconds (poll `i` occurs at
elapsed time `2*i`): it returns `True` as soon as the first poll within the
timeout observes status 200 (network errors and other statuses on earlier
polls being swallowed as failed polls), and returns `False` when no poll
within `timeout_seconds` observes status 200. -/
theorem wait_for_pages_ready_spec (get : Nat → Except String Nat) (timeout_seconds : Nat) :
    ((∀ i, 2 * i < timeout_seconds → get i ≠ Except.ok 200) →
      wait_for_pages_ready get timeout_seconds = false) ∧
    (∀ k, 2 * k < timeout_seconds → get k = Except.ok 200 →
      (∀ j, j < k → get j ≠ Except.ok 200) →
      wait_for_pages_ready get timeout_seconds = true) := by
  constructor
  · intro h
    exact waitLoop_all_fail get timeout_seconds 0 (fun j _ hj => h j (by omega))
  · intro k hk h200 hfail
    exact waitLoop_first_success get timeout_seconds 0 k (by omega) (by omega) h200
      (fun j _ hj => hfail j hj)

/-- The C8 theorem applied at a concrete input: a URL answering 404 for three
polls and 200 on the fourth makes `wait_for_pages_ready` (timeout 120)
return `True`. -/
theorem wait_for_pages_ready_spec_witness :
    wait_for_pages_ready (fun i => if i = 3 then Except.ok 200 else Except.ok 404) 120
      = true := by
  have h := (wait_for_pages_ready_spec
    (fun i => if i = 3 then Except.ok 200 else Except.ok 404) 120).2
  exact h 3 (by omega) (by decide)
    (by intro j hj; interval_cases j <;> decide)

theorem createFilesLoop_norm (env : CreateEnv) (fs : List (String × String)) :
    ∀ last, createFilesLoop env (fs.map (fun pc => (lstripSlash pc.1, pc.2))) last
      = createFilesLoop env fs last := by
  induction fs with
  | nil => intro _; rfl
  | cons pc rest ih =>
    intro last
    obtain ⟨p, c⟩ := pc
    simp only [List.map_cons]
    unfold createFilesLoop
    simp only [lstripSlash_idem]
    cases h : env.createFile (lstripSlash p) ("Add " ++ lstripSlash p) c with
    | error e => simp [h]
    | ok shaOpt => simp [h, ih]

theorem updateOneFile_norm (env : UpdateEnv) (round_num : Nat) (p c : String) :
    updateOneFile env round_num (lstripSlash p) c = updateOneFile env round_num p c := by
  unfold updateOneFile
  simp only [lstripSlash_idem]

theorem updateFilesLoop_norm (env : UpdateEnv) (round_num : Nat)
    (fs : List (String × String)) :
    ∀ last, updateFilesLoop env round_num (fs.map (fun pc => (lstripSlash pc.1, pc.2))) last
      = updateFilesLoop env round_num fs last := by
  induction fs with
  | nil => intro _; rfl
  | cons pc rest ih =>
    intro last
    obtain ⟨p, c⟩ := pc
    simp only [List.map_cons]
    unfold updateFilesLoop
    rw [updateOneFile_norm]
    cases h : updateOneFile env round_num p c with
    | mk res ops => cases res <;> simp [h, ih]

/-- Claim C10: both synchronizer operations strip all leading `'/'`
characters from each path before any remote write, so two file sets whose
paths agree after stripping (in particular, a path with leading slashes and
the same path without them) produce identical outcomes — the same writes to
the same remote paths, the same traces and the same results. -/
theorem path_lstrip_invariance (envC : CreateEnv) (envU : UpdateEnv)
    (token repo_name : String) (owner : Option String) (round_num : Nat)
    (files files' : List (String × String))
    (h : files.map (fun pc => (lstripSlash pc.1, pc.2))
        = files'.map (fun pc => (lstripSlash pc.1, pc.2))) :
    create_repo_and_push envC token repo_name files owner
        = create_repo_and_push envC token repo_name files' owner ∧
    update_repo_and_push envU token repo_name files owner round_num
        = update_repo_and_push envU token repo_name files' owner round_num := by
  have hc : createFilesLoop envC files none = createFilesLoop envC files' none := by
    rw [← createFilesLoop_norm envC files, h, createFilesLoop_norm]
  have hu : updateFilesLoop envU round_num files none
      = updateFilesLoop envU round_num files' none := by
    rw [← updateFilesLoop_norm envU round_num files, h, updateFilesLoop_norm]
  constructor
  · unfold create_repo_and_push
    rw [hc]
  · unfold update_repo_and_push
    rw [hu]

/-- The C10 theorem applied at a concrete input: the path `///a.txt` is
synchronized exactly like `a.txt`, in both the create and the update
operation. -/
theorem path_lstrip_invariance_witness :
    create_repo_and_push envC7 "t" "site" [("///a.txt", "x")] none
        = create_repo_and_push envC7 "t" "site" [("a.txt", "x")] none ∧
    update_repo_and_push envUpd "t" "site" [("///a.txt", "x")] none 2
        = update_repo_and_push envUpd "t" "site" [("a.txt", "x")] none 2 := by
  exact path_lstrip_invariance envC7 envUpd "t" "site" none 2
    [("///a.txt", "x")] [("a.txt", "x")] (by decide)

theorem createFilesLoop_error (env : CreateEnv) :
    ∀ (pre : List (String × String)) (p c e : String) (post : List (String × String))
      (last : Option String),
      (∀ x ∈ pre, ∃ s, env.createFile (lstripSlash x.1) ("Add " ++ lstripSlash x.1) x.2
        = Except.ok s) →
      env.createFile (lstripSlash p) ("Add " ++ lstripSlash p) c = Except.error e →
      createFilesLoop env (pre ++ (p, c) :: post) last
        = (Except.error e,
           pre.map (fun x => WriteOp.create (lstripSlash x.1) ("Add " ++ lstripSlash x.1) x.2)
             ++ [WriteOp.create (lstripSlash p) ("Add " ++ lstripSlash p) c]) := by
  intro pre
  induction pre with
  | nil =>
    intro p c e post last _ hp
    simp only [List.nil_append, List.map_nil]
    unfold createFilesLoop
    simp [hp]
  | cons x pre' ih =>
    intro p c e post last hpre hp
    obtain ⟨s, hs⟩ := hpre x (List.mem_cons_self x pre')
    obtain ⟨q, d⟩ := x
    simp only [List.cons_append, List.map_cons]
    unfold createFilesLoop
    simp only at hs
    simp only [hs]
    simp [ih p c e post _ (fun y hy => hpre y (List.mem_cons_of_mem _ hy)) hp]

theorem updateFilesLoop_error (env : UpdateEnv) (round_num : Nat) :
    ∀ (pre : List (String × String)) (p c e : String) (post : List (String × String))
      (last : Option String),
      (∀ x ∈ pre, ∃ s, (updateOneFile env round_num x.1 x.2).1 = Except.ok s) →
      (updateOneFile env round_num p c).1 = Except.error e →
      updateFilesLoop env round_num (pre ++ (p, c) :: post) last
        = (Except.error e,
           (pre.map (fun x => (updateOneFile env round_num x.1 x.2).2)).flatten
             ++ (updateOneFile env round_num p c).2) := by
  intro pre
  induction pre with
  | nil =>
    intro p c e post last _ hp
    simp only [List.nil_append, List.map_nil, List.flatten_nil]
    unfold updateFilesLoop
    rcases hu : updateOneFile env round_num p c with ⟨res, ops⟩
    rw [hu] at hp
    simp only at hp
    subst hp
    simp [hu]
  | cons x pre' ih =>
    intro p c e post last hpre hp
    obtain ⟨s, hs⟩ := hpre x (List.mem_cons_self x pre')
    obtain ⟨q, d⟩ := x
    simp only [List.cons_append, List.map_cons, List.flatten_cons]
    unfold updateFilesLoop
    rcases hx : updateOneFile env round_num q d with ⟨resx, opsx⟩
    simp only at hs
    rw [hx] at hs
    simp only at hs
    subst hs
    simp [hx, ih p c e post _ (fun y hy => hpre y (List.mem_cons_of_mem _ hy)) hp,
      List.append_assoc]

/-- Claim C1 (amended): a per-file write failure aborts the synchronization
only when nothing further succeeds for that path.  In the round-1 create
operation, if the write of some path raises, the underlying cause propagates
unchanged (no wrapper error naming the path), no later path is attempted and
no result is returned.  In the later-round update operation, a failed update
first falls back to a create of the same path; only when the processing of a
path ends in an uncaught error (its fallback create raises) does the
synchronization abort, propagating that cause, attempting no later path and
returning no result. -/
theorem sync_failfast_amended :
    (∀ (env : CreateEnv) (token repo_name : String) (owner : Option String)
       (login htmlUrl : String) (pre : List (String × String)) (p c e : String)
       (post : List (String × String)),
      token ≠ "" →
      resolveCreateLogin env owner = Except.ok login →
      env.createRepo repo_name = Except.ok htmlUrl →
      (∀ x ∈ pre, ∃ s, env.createFile (lstripSlash x.1) ("Add " ++ lstripSlash x.1) x.2
        = Except.ok s) →
      env.createFile (lstripSlash p) ("Add " ++ lstripSlash p) c = Except.error e →
      create_repo_and_push env token repo_name (pre ++ (p, c) :: post) owner
        = ⟨Except.error (GhError.apiError e),
           pre.map (fun x => WriteOp.create (lstripSlash x.1) ("Add " ++ lstripSlash x.1) x.2)
             ++ [WriteOp.create (lstripSlash p) ("Add " ++ lstripSlash p) c]⟩) ∧
    (∀ (env : UpdateEnv) (token repo_name : String) (owner : Option String)
       (round_num : Nat) (repo : String × String) (tried : List String)
       (pre : List (String × String)) (p c e : String) (post : List (String × String)),
      token ≠ "" →
      findRepo env repo_name (ownersToTry owner env.envOwner (tokenUserOf env.selfLogin))
        = (some repo, tried) →
      (∀ x ∈ pre, ∃ s, (updateOneFile env round_num x.1 x.2).1 = Except.ok s) →
      (updateOneFile env round_num p c).1 = Except.error e →
      update_repo_and_push env token repo_name (pre ++ (p, c) :: post) owner round_num
        = ⟨Except.error (GhError.apiError e), tried,
           (pre.map (fun x => (updateOneFile env round_num x.1 x.2).2)).flatten
             ++ (updateOneFile env round_num p c).2⟩) := by
  constructor
  · intro env token repo_name owner login htmlUrl pre p c e post htok hlog hrepo hpre hp
    unfold create_repo_and_push
    rw [if_neg htok, hlog, hrepo, createFilesLoop_error env pre p c e post none hpre hp]
  · intro env token repo_name owner round_num repo tried pre p c e post htok hfind hpre hp
    unfold update_repo_and_push
    rw [if_neg htok]
    simp only [hfind, updateFilesLoop_error env round_num pre p c e post none hpre hp]

/-- The amended C1 theorem applied at concrete inputs: in round 1, the write
of `f2` fails after `f1` succeeded, so the sync aborts with the cause `boom`
and `f3` is never attempted; in a later round, processing of `c.txt` ends in
an uncaught error `422` after `a.txt` succeeded, so the sync aborts and
`d.txt` is never attempted. -/
theorem sync_failfast_amended_witness :
    create_repo_and_push envCreateFail "t" "site"
        [("f1", "a"), ("f2", "b"), ("f3", "c")] none
      = ⟨Except.error (GhError.apiError "boom"),
         [WriteOp.create "f1" "Add f1" "a", WriteOp.create "f2" "Add f2" "b"]⟩ ∧
    update_repo_and_push envUpd "t" "site"
        [("a.txt", "x"), ("c.txt", "z"), ("d.txt", "w")] none 2
      = ⟨Except.error (GhError.apiError "422"), ["me"],
         [WriteOp.update "a.txt" (updateMsgRound 2 "a.txt") "x" "sha0",
          WriteOp.create "a.txt" (addMsgRound 2 "a.txt") "x",
          WriteOp.create "c.txt" (addMsgRound 2 "c.txt") "z"]⟩ := by
  constructor
  · have h := sync_failfast_amended.1 envCreateFail "t" "site" none "me"
      "https://github.com/me/site" [("f1", "a")] "f2" "b" "boom" [("f3", "c")]
      (by decide) (by decide) (by decide)
      (by
        intro x hx
        simp only [List.mem_singleton] at hx
        subst hx
        exact ⟨some "s1", by decide⟩)
      (by decide)
    exact h.trans (by decide)
  · have h := sync_failfast_amended.2 envUpd "t" "site" none 2
      ("https://github.com/me/site", "me") ["me"] [("a.txt", "x")] "c.txt" "z" "422"
      [("d.txt", "w")]
      (by decide) (by decide)
      (by
        intro x hx
        simp only [List.mem_singleton] at hx
        subst hx
        exact ⟨some "s1", by decide⟩)
      (by decide)
    exact h.trans (by decide)

/-- Claim C2 (amended): for each path whose remote read succeeds, an update
is attempted first, passing the previously read SHA as its precondition; but
a failing update is not surfaced as an error — the code falls back to
attempting a create of the same path (although the remote file exists), and
an error propagates only when that fallback create also fails, carrying the
create's cause.  A create is thus attempted whenever the read or the update
raises, not only when the remote file is absent. -/
theorem per_file_upsert_amended (env : UpdateEnv) (round_num : Nat)
    (path content sha : String)
    (hread : env.getContents (lstripSlash path) = Except.ok sha) :
    (∀ r, env.updateFile (lstripSlash path) (updateMsgRound round_num (lstripSlash path))
        content sha = Except.ok r →
      updateOneFile env round_num path content
        = (Except.ok r,
           [WriteOp.update (lstripSlash path) (updateMsgRound round_num (lstripSlash path))
              content sha])) ∧
    (∀ e r, env.updateFile (lstripSlash path) (updateMsgRound round_num (lstripSlash path))
        content sha = Except.error e →
      env.createFile (lstripSlash path) (addMsgRound round_num (lstripSlash path)) content
        = Except.ok r →
      updateOneFile env round_num path content
        = (Except.ok r,
           [WriteOp.update (lstripSlash path) (updateMsgRound round_num (lstripSlash path))
              content sha,
            WriteOp.create (lstripSlash path) (addMsgRound round_num (lstripSlash path))
              content])) ∧
    (∀ e e2, env.updateFile (lstripSlash path) (updateMsgRound round_num (lstripSlash path))
        content sha = Except.error e →
      env.createFile (lstripSlash path) (addMsgRound round_num (lstripSlash path)) content
        = Except.error e2 →
      updateOneFile env round_num path content
        = (Except.error e2,
           [WriteOp.update (lstripSlash path) (updateMsgRound round_num (lstripSlash path))
              content sha,
            WriteOp.create (lstripSlash path) (addMsgRound round_num (lstripSlash path))
              content])) := by
  refine ⟨?_, ?_, ?_⟩
  · intro r hup
    unfold updateOneFile
    simp only [hread, hup]
  · intro e r hup hcr
    unfold updateOneFile
    simp only [hread, hup, hcr]
  · intro e e2 hup hcr
    unfold updateOneFile
    simp only [hread, hup, hcr]

/-- The amended C2 theorem applied at a concrete input: the remote `a.txt`
exists with SHA `sha0`, its precondition-carrying update raises a conflict,
and the fallback create succeeds, so the per-file step returns success with
an update attempt followed by a create attempt. -/
theorem per_file_upsert_amended_witness :
    updateOneFile envUpd 2 "a.txt" "x"
      = (Except.ok (some "s1"),
         [WriteOp.update "a.txt" (updateMsgRound 2 "a.txt") "x" "sha0",
          WriteOp.create "a.txt" (addMsgRound 2 "a.txt") "x"]) := by
  have h := (per_file_upsert_amended envUpd 2 "a.txt" "x" "sha0" (by decide)).2.1
    "409 Conflict" (some "s1") (by decide) (by decide)
  exact h.trans (by decide)
